import Mathlib

/-!
Shallow embedding of the Bitcoin standard-script classifier/decoder from
`src/scripts.rs` (struct `StandardScripts`, enum `Opcode`, struct
`ScriptBuilder`) of the BitcoinTransactions repository.

Bytes are modelled as `Nat` (the in-range inputs carry values `< 256`; where
`u8` overflow matters the code uses an explicit `% 256`).  The Rust
`std::io::Cursor<&[u8]>` is modelled as a `data`/`pos` pair; its `read_exact`
follows the standard library's behaviour: on success it advances the position
by the requested count, on end-of-buffer failure it returns an
`UnexpectedEof` error and leaves the position at the end of the buffer (both
the generic default implementation of `Read::read_exact`, which repeatedly
calls `Cursor::read`, and the later specialised `Cursor::read_exact` do this).

Fallible Rust functions returning `io::Result` are embedded as functions into
`POut`, which also has a dedicated `panic` outcome: the source's direct byte
slicing (`&bytes.get_ref()[start..end]` in `parse_p2ms` and
`Opcode::read_bytes`) panics when the range end exceeds the buffer length,
and that observable outcome is modelled explicitly rather than hidden.
-/

/-- The `std::io::ErrorKind` values the source constructs. -/
inductive ErrKind where
  | unexpectedEof
  | invalidData
  | unsupported
deriving DecidableEq, Repr

/-- Model of `std::io::Cursor<&[u8]>`: the borrowed byte buffer plus the
current read position. -/
structure Cursor where
  data : List Nat
  pos : Nat
deriving DecidableEq, Repr

/-- Model of `enum Opcode` from `src/scripts.rs`. -/
inductive Opcode where
  | OP_HASH160
  | OP_CHECKSIG
  | OP_EQUAL
  | OP_EQUALVERIFY
  | OP_CHECKMULTISIG
  | OP_DUP
  | OP_RETURN
  | OP_0
  | OP_1
  | Num : Nat → Opcode
  | PushBytes : Nat → Opcode
  | UnsupportedOpcode
deriving DecidableEq, Repr

/-- `Opcode::from_byte`: the byte-to-opcode mapping, arm for arm from the
source `match` (including the inner `match` for bytes 82 to 96). -/
def Opcode.from_byte (byte : Nat) : Opcode :=
  if byte = 169 then Opcode.OP_HASH160
  else if 1 ≤ byte ∧ byte ≤ 75 then Opcode.PushBytes byte
  else if byte = 172 then Opcode.OP_CHECKSIG
  else if byte = 135 then Opcode.OP_EQUAL
  else if byte = 136 then Opcode.OP_EQUALVERIFY
  else if byte = 174 then Opcode.OP_CHECKMULTISIG
  else if byte = 118 then Opcode.OP_DUP
  else if byte = 106 then Opcode.OP_RETURN
  else if byte = 0 then Opcode.OP_0
  else if byte = 81 then Opcode.OP_1
  else if 82 ≤ byte ∧ byte ≤ 96 then
    if byte = 82 then Opcode.Num 2
    else if byte = 83 then Opcode.Num 3
    else if byte = 84 then Opcode.Num 4
    else if byte = 85 then Opcode.Num 5
    else if byte = 86 then Opcode.Num 6
    else if byte = 87 then Opcode.Num 7
    else if byte = 88 then Opcode.Num 8
    else if byte = 89 then Opcode.Num 9
    else if byte = 90 then Opcode.Num 10
    else if byte = 91 then Opcode.Num 11
    else if byte = 92 then Opcode.Num 12
    else if byte = 93 then Opcode.Num 13
    else if byte = 94 then Opcode.Num 14
    else if byte = 95 then Opcode.Num 15
    else if byte = 96 then Opcode.Num 16
    else Opcode.UnsupportedOpcode
  else Opcode.UnsupportedOpcode

/-- The byte-to-opcode table exactly as the specification states it
(spec section 6): a second definition following the spec's words, to be
compared with `Opcode.from_byte`, which is translated from the source. -/
def from_byte_spec_table (b : Nat) : Opcode :=
  if b = 0 then Opcode.OP_0
  else if 1 ≤ b ∧ b ≤ 75 then Opcode.PushBytes b
  else if b = 81 then Opcode.OP_1
  else if 82 ≤ b ∧ b ≤ 96 then Opcode.Num (b - 80)
  else if b = 106 then Opcode.OP_RETURN
  else if b = 118 then Opcode.OP_DUP
  else if b = 135 then Opcode.OP_EQUAL
  else if b = 136 then Opcode.OP_EQUALVERIFY
  else if b = 169 then Opcode.OP_HASH160
  else if b = 172 then Opcode.OP_CHECKSIG
  else if b = 174 then Opcode.OP_CHECKMULTISIG
  else Opcode.UnsupportedOpcode

/-- `impl TryFrom<Opcode> for String`: the canonical mnemonic of an opcode,
failing (with `ErrorKind::InvalidData`) on `UnsupportedOpcode`. -/
def Opcode.try_into_string : Opcode → Except (ErrKind × String) String
  | Opcode.OP_HASH160 => Except.ok "OP_HASH160"
  | Opcode.PushBytes bytes_len => Except.ok ("OP_PUSHBYTES_" ++ toString bytes_len)
  | Opcode.OP_CHECKSIG => Except.ok "OP_CHECKSIG"
  | Opcode.OP_EQUAL => Except.ok "OP_EQUAL"
  | Opcode.OP_EQUALVERIFY => Except.ok "OP_EQUALVERIFY"
  | Opcode.OP_CHECKMULTISIG => Except.ok "OP_CHECKMULTISIG"
  | Opcode.OP_DUP => Except.ok "OP_DUP"
  | Opcode.OP_RETURN => Except.ok "OP_RETURN"
  | Opcode.OP_0 => Except.ok "OP_0"
  | Opcode.OP_1 => Except.ok "OP_1"
  | Opcode.Num value => Except.ok ("OP_" ++ toString value)
  | Opcode.UnsupportedOpcode =>
      Except.error (ErrKind.invalidData,
        "Unsupported Opcode. Opcode not part of Bitcoin Core standard scripts")

/-- One lower-case hexadecimal digit character, as `hex::encode` emits. -/
def hexDigit (n : Nat) : Char :=
  if n < 10 then Char.ofNat (48 + n) else Char.ofNat (87 + n)

/-- The two hex characters of a single byte. -/
def byteHexChars (b : Nat) : List Char :=
  [hexDigit (b / 16), hexDigit (b % 16)]

/-- `hex::encode`: lower-case hex string of a byte sequence. -/
def hexEncode (bs : List Nat) : String :=
  String.mk (List.flatten (bs.map byteHexChars))

/-- The whitespace characters relevant to `str::trim` here (the strings the
builder produces only ever carry ASCII spaces at their ends). -/
def isWhitespaceChar (ch : Char) : Bool :=
  ch == ' ' || ch == '\t' || ch == '\n' || ch == '\r'

/-- `str::trim`: drop whitespace from both ends. -/
def rustTrim (s : String) : String :=
  String.mk (((s.data.dropWhile isWhitespaceChar).reverse.dropWhile isWhitespaceChar).reverse)

/-- `ScriptBuilder::new`: the builder is a vector of mnemonic tokens. -/
def ScriptBuilder.new : List String := []

/-- `ScriptBuilder::push_opcode`: render the opcode and append its token
(fallible via `TryFrom`). -/
def ScriptBuilder.push_opcode (sb : List String) (opcode : Opcode) :
    Except (ErrKind × String) (List String) :=
  match opcode.try_into_string with
  | Except.ok opcode_string => Except.ok (sb ++ [opcode_string])
  | Except.error e => Except.error e

/-- `ScriptBuilder::push_bytes`: append the hex encoding of a byte blob. -/
def ScriptBuilder.push_bytes (sb : List String) (bytes : List Nat) : List String :=
  sb ++ [hexEncode bytes]

/-- `ScriptBuilder::build`: append one space to every token, concatenate,
then trim. -/
def ScriptBuilder.build (sb : List String) : String :=
  rustTrim (String.mk (List.flatten (sb.map (fun part => (part ++ " ").data))))

/-- Outcome of running an embedded fallible computation: a value, a typed
`io::Error` (kind plus message), or a Rust panic. -/
inductive POut (α : Type) where
  | ok : α → POut α
  | err : ErrKind → String → POut α
  | panic : POut α
deriving DecidableEq, Repr

/-- State-passing embedding of the Rust functions that take
`&mut Cursor<&[u8]>` and return `io::Result`. -/
def M (α : Type) : Type := Cursor → POut (α × Cursor)

/-- Sequencing of two cursor computations; Rust's `?` operator. -/
def mbind {α β : Type} (m : M α) (f : α → M β) : M β := fun c =>
  match m c with
  | POut.ok (a, c') => f a c'
  | POut.err k s => POut.err k s
  | POut.panic => POut.panic

instance : Monad M where
  pure a := fun c => POut.ok (a, c)
  bind := mbind

/-- Return an error, as `Self::to_io_error` / `Err(io::Error::new(..))` do. -/
def mThrow {α : Type} (k : ErrKind) (s : String) : M α := fun _ => POut.err k s

/-- Lift a pure `Except` step (the `ScriptBuilder` pushes) into the cursor
computation; Rust's `?` on a cursor-free result. -/
def liftE {α : Type} (r : Except (ErrKind × String) α) : M α := fun c =>
  match r with
  | Except.ok a => POut.ok (a, c)
  | Except.error e => POut.err e.1 e.2

/-- `Cursor::position`. -/
def mPosition : M Nat := fun c => POut.ok (c.pos, c)

/-- `Cursor::set_position`. -/
def mSetPosition (p : Nat) : M Unit := fun c => POut.ok ((), { c with pos := p })

/-- `Cursor::read_exact` into a buffer of length `n`, following the standard
library: on success the position advances by `n` and the next `n` bytes are
returned; when fewer than `n` bytes remain it fails with `UnexpectedEof`
("failed to fill whole buffer") and the position is left at the end of the
buffer (all remaining bytes were consumed by the underlying `read` loop). -/
def readExact (n : Nat) (c : Cursor) : Except (ErrKind × String) (List Nat) × Cursor :=
  if min c.pos c.data.length + n ≤ c.data.length then
    (Except.ok ((c.data.drop c.pos).take n), { c with pos := c.pos + n })
  else
    (Except.error (ErrKind.unexpectedEof, "failed to fill whole buffer"),
      { c with pos := c.data.length })

/-- `read_exact` as a cursor computation. -/
def mReadExact (n : Nat) : M (List Nat) := fun c =>
  match readExact n c with
  | (Except.ok bs, c') => POut.ok (bs, c')
  | (Except.error e, _) => POut.err e.1 e.2

/-- `read_exact(&mut [0u8; 1])` followed by taking `buffer[0]`. -/
def mReadByte : M Nat := fun c =>
  match readExact 1 c with
  | (Except.ok bs, c') => POut.ok (bs.headD 0, c')
  | (Except.error e, _) => POut.err e.1 e.2

/-- `Opcode::read_bytes`: for `PushBytes(n)` slice the next `n` bytes
directly out of the buffer (`&bytes.get_ref()[pos..pos + n]`), which panics
when the end of the range exceeds the buffer length; any other opcode is an
`ErrorKind::Unsupported` error. -/
def Opcode.read_bytes (op : Opcode) : M (List Nat) := fun c =>
  match op with
  | Opcode.PushBytes byte_len =>
      if c.pos + byte_len ≤ c.data.length then
        POut.ok ((c.data.drop c.pos).take byte_len, { c with pos := c.pos + byte_len })
      else POut.panic
  | _ => POut.err ErrKind.unsupported "This operation is not supported"

/-- `StandardScripts::parse_p2pk`. -/
def parse_p2pk : M String := do
  let public_key_bytes ← mReadExact 65
  let b ← mReadByte
  let op_checksig := Opcode.from_byte b
  if op_checksig ≠ Opcode.OP_CHECKSIG then
    mThrow ErrKind.invalidData "Invalid Data. Expected OP_CHECKSIG as last byte of the script."
  else do
    let sb ← liftE (ScriptBuilder.push_opcode ScriptBuilder.new (Opcode.PushBytes 65))
    let sb := ScriptBuilder.push_bytes sb public_key_bytes
    let sb ← liftE (ScriptBuilder.push_opcode sb Opcode.OP_CHECKSIG)
    pure (ScriptBuilder.build sb)

/-- `StandardScripts::parse_p2pkh`. -/
def parse_p2pkh : M String := do
  let b1 ← mReadByte
  if Opcode.from_byte b1 ≠ Opcode.OP_HASH160 then
    mThrow ErrKind.invalidData "Invalid Data. Expected OP_HASH160 as second byte of the script."
  else do
  let b2 ← mReadByte
  if Opcode.from_byte b2 ≠ Opcode.PushBytes 20 then
    mThrow ErrKind.invalidData "Invalid Data. Expected OP_PUSHBYTES_20 as third byte of the script."
  else do
  let hash160_bytes ← mReadExact 20
  let b3 ← mReadByte
  if Opcode.from_byte b3 ≠ Opcode.OP_EQUALVERIFY then
    mThrow ErrKind.invalidData
      "Invalid Data. Expected OP_EQUALVERIFY after reading 20 bytes after third byte of the script."
  else do
  let b4 ← mReadByte
  if Opcode.from_byte b4 ≠ Opcode.OP_CHECKSIG then
    mThrow ErrKind.invalidData
      "Invalid Data. Expected OP_CHECKSIG after reading OP_EQUALVERIFY byte in the script."
  else do
    let sb ← liftE (ScriptBuilder.push_opcode ScriptBuilder.new Opcode.OP_DUP)
    let sb ← liftE (ScriptBuilder.push_opcode sb Opcode.OP_HASH160)
    let sb ← liftE (ScriptBuilder.push_opcode sb (Opcode.PushBytes 20))
    let sb := ScriptBuilder.push_bytes sb hash160_bytes
    let sb ← liftE (ScriptBuilder.push_opcode sb Opcode.OP_EQUALVERIFY)
    let sb ← liftE (ScriptBuilder.push_opcode sb Opcode.OP_CHECKSIG)
    pure (ScriptBuilder.build sb)

/-- `StandardScripts::parse_p2sh`. -/
def parse_p2sh : M String := do
  let b1 ← mReadByte
  if Opcode.from_byte b1 ≠ Opcode.PushBytes 20 then
    mThrow ErrKind.invalidData "Invalid Data. Expected an OP_PUSHBYTES_20 opcode after OP_HASH160"
  else do
  let bytes_20_buffer ← mReadExact 20
  let b2 ← mReadByte
  if Opcode.from_byte b2 ≠ Opcode.OP_EQUAL then
    mThrow ErrKind.invalidData "Invalid Data. Expected an OP_EQUAL opcode after reading 20 bytes"
  else do
    let sb ← liftE (ScriptBuilder.push_opcode ScriptBuilder.new Opcode.OP_HASH160)
    let sb ← liftE (ScriptBuilder.push_opcode sb (Opcode.PushBytes 20))
    let sb := ScriptBuilder.push_bytes sb bytes_20_buffer
    let sb ← liftE (ScriptBuilder.push_opcode sb Opcode.OP_EQUAL)
    pure (ScriptBuilder.build sb)

/-- `StandardScripts::parse_data` (the `OP_RETURN` data carrier). -/
def parse_data : M String := do
  let b ← mReadByte
  let second_opcode := Opcode.from_byte b
  let data_bytes ← second_opcode.read_bytes
  let sb ← liftE (ScriptBuilder.push_opcode ScriptBuilder.new Opcode.OP_RETURN)
  let sb ← liftE (ScriptBuilder.push_opcode sb second_opcode)
  let sb := ScriptBuilder.push_bytes sb data_bytes
  pure (ScriptBuilder.build sb)

/-- `StandardScripts::parse_p2wpkh`. -/
def parse_p2wpkh : M String := do
  let pubkey_hash_bytes ← mReadExact 20
  let sb ← liftE (ScriptBuilder.push_opcode ScriptBuilder.new Opcode.OP_0)
  let sb ← liftE (ScriptBuilder.push_opcode sb (Opcode.PushBytes 20))
  let sb := ScriptBuilder.push_bytes sb pubkey_hash_bytes
  pure (ScriptBuilder.build sb)

/-- `StandardScripts::parse_p2wsh`. -/
def parse_p2wsh : M String := do
  let hash_bytes ← mReadExact 32
  let sb ← liftE (ScriptBuilder.push_opcode ScriptBuilder.new Opcode.OP_0)
  let sb ← liftE (ScriptBuilder.push_opcode sb (Opcode.PushBytes 32))
  let sb := ScriptBuilder.push_bytes sb hash_bytes
  pure (ScriptBuilder.build sb)

/-- `StandardScripts::parse_p2tr`. -/
def parse_p2tr : M String := do
  let hash_bytes ← mReadExact 32
  let sb ← liftE (ScriptBuilder.push_opcode ScriptBuilder.new (Opcode.Num 1))
  let sb ← liftE (ScriptBuilder.push_opcode sb (Opcode.PushBytes 32))
  let sb := ScriptBuilder.push_bytes sb hash_bytes
  pure (ScriptBuilder.build sb)

/-- The error messages of `parse_p2ms`, verbatim from the source. -/
def msgInvalidExpectedPushOrNum : String :=
  "Invalid Script. Expected a PUSH_BYTES_* or OP_1..16"

def msgKeyCountMismatch : String :=
  "Invalid Script. The number of public keys for multisignature is less than or greater than the script requirements."

def msgThresholdExceedsKeys : String :=
  "Invalid Script. The number of public keys for multisignature is less the threshold."

def msgExpectedCheckMultisig : String :=
  "Invalid Script. OP_CHECKMULTISIG opcode should be next"

/-- Outcome of the `loop` inside `parse_p2ms`: normal exit carries the
accumulated tokens, the observed public-key count, the declared key count
(the `Num` that broke the loop), and the cursor after the count opcode.
`nofuel` is the artefact of the fuelled embedding and is never produced when
the fuel exceeds the remaining buffer length (`p2msLoop_ne_nofuel`). -/
inductive MsLoopOut where
  | done : List String → Nat → Nat → Cursor → MsLoopOut
  | err : ErrKind → String → MsLoopOut
  | panic : MsLoopOut
  | nofuel : MsLoopOut
deriving DecidableEq, Repr

/-- The key-collecting `loop` of `StandardScripts::parse_p2ms`.  Each round
reads one opcode byte: a `Num` opcode ends the loop as the declared key
count; a `PushBytes(v)` opcode slices the next `v` bytes directly out of the
buffer (a panic when the buffer is too short), records them as a public key
and bumps the `u8` key counter (hence the `% 256`); anything else is an
error.  The fuel only bounds the recursion. -/
def p2msLoop (fuel : Nat) (sb : List String) (pubkey_count : Nat) (c : Cursor) : MsLoopOut :=
  match fuel with
  | 0 => MsLoopOut.nofuel
  | Nat.succ fuel' =>
    match readExact 1 c with
    | (Except.error e, _) => MsLoopOut.err e.1 e.2
    | (Except.ok bs, c1) =>
      match Opcode.from_byte (bs.headD 0) with
      | Opcode.Num value =>
          match ScriptBuilder.push_opcode sb (Opcode.Num value) with
          | Except.error e => MsLoopOut.err e.1 e.2
          | Except.ok sb1 => MsLoopOut.done sb1 pubkey_count value c1
      | Opcode.PushBytes value =>
          if c1.pos + value ≤ c1.data.length then
            match ScriptBuilder.push_opcode sb (Opcode.PushBytes value) with
            | Except.error e => MsLoopOut.err e.1 e.2
            | Except.ok sb1 =>
                p2msLoop fuel'
                  (ScriptBuilder.push_bytes sb1 ((c1.data.drop c1.pos).take value))
                  ((pubkey_count + 1) % 256)
                  { c1 with pos := c1.pos + value }
          else MsLoopOut.panic
      | _ => MsLoopOut.err ErrKind.invalidData msgInvalidExpectedPushOrNum

/-- The loop as a cursor computation, run with sufficient fuel. -/
def runP2msLoop (sb : List String) : M (List String × Nat × Nat) := fun c =>
  match p2msLoop (c.data.length + 1) sb 0 c with
  | MsLoopOut.done sb' k n c' => POut.ok ((sb', k, n), c')
  | MsLoopOut.err k s => POut.err k s
  | MsLoopOut.panic => POut.panic
  | MsLoopOut.nofuel => POut.panic

/-- The last statements of `StandardScripts::parse_p2ms`: read the next
opcode, require `OP_CHECKMULTISIG`, push it and build the script string. -/
def p2msTail (sb : List String) : M String := do
  let b ← mReadByte
  let opcheck_multisig := Opcode.from_byte b
  if opcheck_multisig ≠ Opcode.OP_CHECKMULTISIG then
    mThrow ErrKind.invalidData msgExpectedCheckMultisig
  else do
    let sb1 ← liftE (ScriptBuilder.push_opcode sb Opcode.OP_CHECKMULTISIG)
    pure (ScriptBuilder.build sb1)

/-- The tail of `StandardScripts::parse_p2ms` after the loop: the
key-count/threshold validations followed by the mandatory
`OP_CHECKMULTISIG` (`p2msTail`). -/
def p2msFinish (threshold_opcode : Opcode) (sb : List String)
    (pubkey_count parsed_pubkey_count : Nat) : M String := do
  if pubkey_count ≠ parsed_pubkey_count then
    mThrow ErrKind.invalidData msgKeyCountMismatch
  else do
    (match threshold_opcode with
     | Opcode.Num threshold_inner =>
        if parsed_pubkey_count < threshold_inner then
          mThrow ErrKind.invalidData msgThresholdExceedsKeys
        else pure ()
     | _ => pure ())
    p2msTail sb

/-- `StandardScripts::parse_p2ms`. -/
def parse_p2ms : M String := do
  let b ← mReadByte
  let threshold_opcode := Opcode.from_byte b
  match threshold_opcode with
  | Opcode.Num _ | Opcode.OP_1 => do
      let sb ← liftE (ScriptBuilder.push_opcode ScriptBuilder.new threshold_opcode)
      let out ← runP2msLoop sb
      p2msFinish threshold_opcode out.1 out.2.1 out.2.2
  | _ => mThrow ErrKind.invalidData "Invalid Script."

/-- `StandardScripts::parse`: the classifier.  The source `match` on the
first opcode is rendered as the equivalent chain of equality tests (the
patterns are constants with a final catch-all). -/
def parse : M String := do
  let b ← mReadByte
  let first_opcode := Opcode.from_byte b
  if first_opcode = Opcode.PushBytes 65 then parse_p2pk
  else if first_opcode = Opcode.OP_DUP then parse_p2pkh
  else if first_opcode = Opcode.OP_HASH160 then parse_p2sh
  else if first_opcode = Opcode.OP_RETURN then parse_data
  else if first_opcode = Opcode.OP_0 then do
    let b2 ← mReadByte
    let second_opcode := Opcode.from_byte b2
    if second_opcode = Opcode.PushBytes 20 then parse_p2wpkh
    else if second_opcode = Opcode.PushBytes 32 then parse_p2wsh
    else mThrow ErrKind.invalidData "Invalid Script. Expected OP_PUSHBYTES_20 or OP_PUSHBYTES_32 after OP_0"
  else do
    let b2 ← mReadByte
    let second_opcode := Opcode.from_byte b2
    if first_opcode = Opcode.OP_1 ∧ second_opcode = Opcode.PushBytes 32 then parse_p2tr
    else do
      let p ← mPosition
      mSetPosition (p - 2)
      parse_p2ms

/-! ### Evaluation helpers -/

theorem bind_ok {α β : Type} {m : M α} {f : α → M β} {c c' : Cursor} {a : α}
    (h : m c = POut.ok (a, c')) : (m >>= f) c = f a c' := by
  show mbind m f c = f a c'
  unfold mbind
  rw [h]

theorem bind_err {α β : Type} {m : M α} {f : α → M β} {c : Cursor} {k : ErrKind} {s : String}
    (h : m c = POut.err k s) : (m >>= f) c = POut.err k s := by
  show mbind m f c = POut.err k s
  unfold mbind
  rw [h]

theorem bind_panic {α β : Type} {m : M α} {f : α → M β} {c : Cursor}
    (h : m c = POut.panic) : (m >>= f) c = POut.panic := by
  show mbind m f c = POut.panic
  unfold mbind
  rw [h]

theorem pure_eval {α : Type} (a : α) (c : Cursor) : (pure a : M α) c = POut.ok (a, c) := rfl

theorem mThrow_eval {α : Type} (k : ErrKind) (s : String) (c : Cursor) :
    (mThrow k s : M α) c = POut.err k s := rfl

theorem liftE_ok {α : Type} {r : Except (ErrKind × String) α} {a : α}
    (h : r = Except.ok a) (c : Cursor) : liftE r c = POut.ok (a, c) := by
  unfold liftE
  rw [h]

theorem mReadByte_at (d pre post : List Nat) (b p : Nat)
    (hd : d = pre ++ b :: post) (hp : pre.length = p) :
    mReadByte ⟨d, p⟩ = POut.ok (b, ⟨d, p + 1⟩) := by
  subst hd; subst hp
  unfold mReadByte readExact
  have h1 : min pre.length (pre ++ b :: post).length = pre.length := by
    simp [List.length_append]
  rw [h1]
  have h2 : pre.length + 1 ≤ (pre ++ b :: post).length := by
    simp [List.length_append]
  rw [if_pos h2]
  simp [List.drop_left]

theorem mReadExact_at (d pre mid post : List Nat) (n p : Nat)
    (hd : d = pre ++ (mid ++ post)) (hp : pre.length = p) (hm : mid.length = n) :
    mReadExact n ⟨d, p⟩ = POut.ok (mid, ⟨d, p + n⟩) := by
  subst hd; subst hp; subst hm
  unfold mReadExact readExact
  have h1 : min pre.length (pre ++ (mid ++ post)).length = pre.length := by
    simp [List.length_append]
  rw [h1]
  have h2 : pre.length + mid.length ≤ (pre ++ (mid ++ post)).length := by
    simp [List.length_append]
  rw [if_pos h2]
  rw [List.drop_left, List.take_left]

/-! ### Builder output helpers -/

theorem trim_core (mid : List Char) (hd lst : Char)
    (h1 : isWhitespaceChar hd = false) (h2 : isWhitespaceChar lst = false) :
    rustTrim (String.mk (hd :: (mid ++ [lst, ' '])))
      = String.mk (hd :: (mid ++ [lst])) := by
  unfold rustTrim
  have e1 : (String.mk (hd :: (mid ++ [lst, ' ']))).data = hd :: (mid ++ [lst, ' ']) := rfl
  rw [e1, List.dropWhile_cons, h1]
  simp only [Bool.false_eq_true, if_false]
  have e2 : (hd :: (mid ++ [lst, ' '])).reverse = ' ' :: lst :: (hd :: mid).reverse := by simp
  rw [e2, List.dropWhile_cons]
  have hsp : isWhitespaceChar ' ' = true := by decide
  rw [hsp]
  simp only [if_true]
  rw [List.dropWhile_cons, h2]
  simp only [Bool.false_eq_true, if_false]
  simp

theorem build_p2pkh_tokens (hd : List Char) :
    ScriptBuilder.build ["OP_DUP", "OP_HASH160", "OP_PUSHBYTES_20", String.mk hd,
        "OP_EQUALVERIFY", "OP_CHECKSIG"]
      = "OP_DUP OP_HASH160 OP_PUSHBYTES_20 " ++ String.mk hd ++ " OP_EQUALVERIFY OP_CHECKSIG" := by
  have hflat : List.flatten ((["OP_DUP", "OP_HASH160", "OP_PUSHBYTES_20", String.mk hd,
        "OP_EQUALVERIFY", "OP_CHECKSIG"]).map (fun part => (part ++ " ").data))
      = 'O' :: ("P_DUP OP_HASH160 OP_PUSHBYTES_20 ".data
          ++ ((hd ++ [' ']) ++ "OP_EQUALVERIFY OP_CHECKSIG ".data)) := rfl
  unfold ScriptBuilder.build
  rw [hflat]
  have hsplit : ("OP_EQUALVERIFY OP_CHECKSIG " : String).data
      = "OP_EQUALVERIFY OP_CHECKSI".data ++ ['G', ' '] := rfl
  rw [hsplit]
  have hassoc : 'O' :: ("P_DUP OP_HASH160 OP_PUSHBYTES_20 ".data
          ++ ((hd ++ [' ']) ++ ("OP_EQUALVERIFY OP_CHECKSI".data ++ ['G', ' '])))
      = 'O' :: ((("P_DUP OP_HASH160 OP_PUSHBYTES_20 ".data ++ hd)
          ++ (' ' :: "OP_EQUALVERIFY OP_CHECKSI".data)) ++ ['G', ' ']) := by
    simp [List.append_assoc]
  rw [hassoc]
  rw [trim_core _ 'O' 'G' (by decide) (by decide)]
  show String.mk _
      = String.mk (('O' :: "P_DUP OP_HASH160 OP_PUSHBYTES_20 ".data)
          ++ (hd ++ (' ' :: ("OP_EQUALVERIFY OP_CHECKSI".data ++ ['G']))))
  exact congrArg String.mk (by simp [List.append_assoc])

theorem build_p2ms33_tokens (h1 h2 : List Char) :
    ScriptBuilder.build ["OP_1", "OP_PUSHBYTES_33", String.mk h1, "OP_PUSHBYTES_33",
        String.mk h2, "OP_2", "OP_CHECKMULTISIG"]
      = "OP_1 OP_PUSHBYTES_33 " ++ String.mk h1 ++ " OP_PUSHBYTES_33 " ++ String.mk h2
          ++ " OP_2 OP_CHECKMULTISIG" := by
  have hflat : List.flatten ((["OP_1", "OP_PUSHBYTES_33", String.mk h1, "OP_PUSHBYTES_33",
        String.mk h2, "OP_2", "OP_CHECKMULTISIG"]).map (fun part => (part ++ " ").data))
      = 'O' :: ("P_1 OP_PUSHBYTES_33 ".data ++ ((h1 ++ [' '])
          ++ ("OP_PUSHBYTES_33 ".data ++ ((h2 ++ [' ']) ++ "OP_2 OP_CHECKMULTISIG ".data)))) := rfl
  unfold ScriptBuilder.build
  rw [hflat]
  have hsplit : ("OP_2 OP_CHECKMULTISIG " : String).data
      = "OP_2 OP_CHECKMULTISI".data ++ ['G', ' '] := rfl
  rw [hsplit]
  have hassoc : 'O' :: ("P_1 OP_PUSHBYTES_33 ".data ++ ((h1 ++ [' '])
          ++ ("OP_PUSHBYTES_33 ".data ++ ((h2 ++ [' '])
          ++ ("OP_2 OP_CHECKMULTISI".data ++ ['G', ' '])))))
      = 'O' :: ((("P_1 OP_PUSHBYTES_33 ".data ++ h1)
          ++ ((' ' :: "OP_PUSHBYTES_33 ".data) ++ (h2
          ++ (' ' :: "OP_2 OP_CHECKMULTISI".data)))) ++ ['G', ' ']) := by
    simp [List.append_assoc]
  rw [hassoc]
  rw [trim_core _ 'O' 'G' (by decide) (by decide)]
  have hr : ("OP_1 OP_PUSHBYTES_33 " ++ String.mk h1 ++ " OP_PUSHBYTES_33 " ++ String.mk h2
        ++ " OP_2 OP_CHECKMULTISIG" : String)
      = String.mk (((("OP_1 OP_PUSHBYTES_33 ".data ++ h1) ++ " OP_PUSHBYTES_33 ".data) ++ h2)
          ++ " OP_2 OP_CHECKMULTISIG".data) := rfl
  rw [hr]
  refine congrArg String.mk ?_
  have e1 : ("OP_1 OP_PUSHBYTES_33 " : String).data
      = 'O' :: "P_1 OP_PUSHBYTES_33 ".data := rfl
  have e2 : (" OP_PUSHBYTES_33 " : String).data = ' ' :: "OP_PUSHBYTES_33 ".data := rfl
  have e3 : (" OP_2 OP_CHECKMULTISIG" : String).data
      = ' ' :: ("OP_2 OP_CHECKMULTISI".data ++ ['G']) := rfl
  rw [e1, e2, e3]
  simp [List.append_assoc]

/-! ### Classifier dispatch helpers -/

theorem parse_to_p2pkh {c c1 : Cursor} {b : Nat}
    (h : mReadByte c = POut.ok (b, c1)) (hop : Opcode.from_byte b = Opcode.OP_DUP) :
    parse c = parse_p2pkh c1 := by
  unfold parse
  rw [bind_ok h]
  simp only [hop]
  simp

theorem parse_to_p2ms {c c1 c2 : Cursor} {b1 b2 : Nat}
    (h1 : mReadByte c = POut.ok (b1, c1)) (h2 : mReadByte c1 = POut.ok (b2, c2))
    (hn1 : Opcode.from_byte b1 ≠ Opcode.PushBytes 65)
    (hn2 : Opcode.from_byte b1 ≠ Opcode.OP_DUP)
    (hn3 : Opcode.from_byte b1 ≠ Opcode.OP_HASH160)
    (hn4 : Opcode.from_byte b1 ≠ Opcode.OP_RETURN)
    (hn5 : Opcode.from_byte b1 ≠ Opcode.OP_0)
    (hn6 : ¬(Opcode.from_byte b1 = Opcode.OP_1 ∧ Opcode.from_byte b2 = Opcode.PushBytes 32)) :
    parse c = parse_p2ms ⟨c2.data, c2.pos - 2⟩ := by
  unfold parse
  rw [bind_ok h1]
  simp only [if_neg hn1, if_neg hn2, if_neg hn3, if_neg hn4, if_neg hn5]
  rw [bind_ok h2]
  simp only [if_neg hn6]
  rw [bind_ok (show mPosition c2 = POut.ok (c2.pos, c2) from rfl)]
  rw [bind_ok (show mSetPosition (c2.pos - 2) c2 = POut.ok ((), ⟨c2.data, c2.pos - 2⟩) from rfl)]
theorem slice_at (d pre mid post : List Nat) (n p : Nat)
    (hd : d = pre ++ (mid ++ post)) (hp : pre.length = p) (hm : mid.length = n) :
    (d.drop p).take n = mid := by
  subst hd; subst hp; subst hm
  rw [List.drop_left, List.take_left]

theorem readExact_at (d pre mid post : List Nat) (n p : Nat)
    (hd : d = pre ++ (mid ++ post)) (hp : pre.length = p) (hm : mid.length = n) :
    readExact n ⟨d, p⟩ = (Except.ok mid, ⟨d, p + n⟩) := by
  have hs := slice_at d pre mid post n p hd hp hm
  subst hd; subst hp; subst hm
  unfold readExact
  have h1 : min pre.length (pre ++ (mid ++ post)).length = pre.length := by
    simp [List.length_append]
  rw [h1]
  have h2 : pre.length + mid.length ≤ (pre ++ (mid ++ post)).length := by
    simp [List.length_append]
  rw [if_pos h2, hs]

theorem p2msLoop_push (f fp : Nat) (sb : List String) (k : Nat)
    (d pre key post : List Nat) (pb v p : Nat)
    (hf : fp = f + 1)
    (hd : d = pre ++ ([pb] ++ (key ++ post))) (hp : pre.length = p)
    (hpb : Opcode.from_byte pb = Opcode.PushBytes v) (hkey : key.length = v) :
    p2msLoop fp sb k ⟨d, p⟩
      = p2msLoop f (sb ++ ["OP_PUSHBYTES_" ++ toString v, hexEncode key]) ((k + 1) % 256)
          ⟨d, p + 1 + v⟩ := by
  subst hf
  have hr : readExact 1 ⟨d, p⟩ = (Except.ok [pb], ⟨d, p + 1⟩) :=
    readExact_at d pre [pb] (key ++ post) 1 p (by simp [hd]) hp rfl
  have hslice : ((⟨d, p + 1⟩ : Cursor).data.drop (p + 1)).take v = key :=
    slice_at d (pre ++ [pb]) key post v (p + 1) (by simp [hd])
      (by simp [hp]) hkey
  conv_lhs => unfold p2msLoop
  rw [hr]
  simp only [List.headD, hpb]
  have hcond : (⟨d, p + 1⟩ : Cursor).pos + v ≤ (⟨d, p + 1⟩ : Cursor).data.length := by
    simp [hd, List.length_append, hp, hkey]
    omega
  rw [if_pos hcond]
  rw [show ScriptBuilder.push_opcode sb (Opcode.PushBytes v)
    = Except.ok (sb ++ ["OP_PUSHBYTES_" ++ toString v]) from rfl]
  show p2msLoop f (ScriptBuilder.push_bytes (sb ++ ["OP_PUSHBYTES_" ++ toString v])
      (((⟨d, p + 1⟩ : Cursor).data.drop (p + 1)).take v)) ((k + 1) % 256) ⟨d, p + 1 + v⟩ = _
  rw [hslice]
  unfold ScriptBuilder.push_bytes
  rw [List.append_assoc]
  rfl

theorem p2msLoop_num (f fp : Nat) (sb : List String) (k : Nat)
    (d pre post : List Nat) (b v p : Nat)
    (hf : fp = f + 1)
    (hd : d = pre ++ ([b] ++ post)) (hp : pre.length = p)
    (hb : Opcode.from_byte b = Opcode.Num v) :
    p2msLoop fp sb k ⟨d, p⟩
      = MsLoopOut.done (sb ++ ["OP_" ++ toString v]) k v ⟨d, p + 1⟩ := by
  subst hf
  have hr : readExact 1 ⟨d, p⟩ = (Except.ok [b], ⟨d, p + 1⟩) :=
    readExact_at d pre [b] post 1 p (by simp [hd]) hp rfl
  conv_lhs => unfold p2msLoop
  rw [hr]
  simp only [List.headD, hb]
  rw [show ScriptBuilder.push_opcode sb (Opcode.Num v)
    = Except.ok (sb ++ ["OP_" ++ toString v]) from rfl]

theorem p2msLoop_op1_err (f fp : Nat) (sb : List String) (k : Nat)
    (d pre post : List Nat) (p : Nat)
    (hf : fp = f + 1) (hd : d = pre ++ ([81] ++ post)) (hp : pre.length = p) :
    p2msLoop fp sb k ⟨d, p⟩ = MsLoopOut.err ErrKind.invalidData msgInvalidExpectedPushOrNum := by
  subst hf
  have hr : readExact 1 ⟨d, p⟩ = (Except.ok [81], ⟨d, p + 1⟩) :=
    readExact_at d pre [81] post 1 p hd hp rfl
  conv_lhs => unfold p2msLoop
  rw [hr]
  rfl

theorem runP2msLoop_done {sb sb' : List String} {k n : Nat} {c c' : Cursor}
    (h : p2msLoop (c.data.length + 1) sb 0 c = MsLoopOut.done sb' k n c') :
    runP2msLoop sb c = POut.ok ((sb', k, n), c') := by
  unfold runP2msLoop
  rw [h]

theorem runP2msLoop_err {sb : List String} {c : Cursor} {k : ErrKind} {s : String}
    (h : p2msLoop (c.data.length + 1) sb 0 c = MsLoopOut.err k s) :
    runP2msLoop sb c = POut.err k s := by
  unfold runP2msLoop
  rw [h]

theorem parse_p2ms_entry {c c1 : Cursor} {b : Nat}
    (h : mReadByte c = POut.ok (b, c1)) (hb : Opcode.from_byte b = Opcode.OP_1) :
    parse_p2ms c = (do
      let sb ← liftE (ScriptBuilder.push_opcode ScriptBuilder.new Opcode.OP_1)
      let out ← runP2msLoop sb
      p2msFinish Opcode.OP_1 out.1 out.2.1 out.2.2) c1 := by
  unfold parse_p2ms
  rw [bind_ok h]
  simp only [hb]
theorem parse_p2pkh_steps {c1 c2 c3 c4 c5 c6 : Cursor} {b2 b3 b5 b6 : Nat} {mid : List Nat}
    (h2 : mReadByte c1 = POut.ok (b2, c2)) (hop2 : Opcode.from_byte b2 = Opcode.OP_HASH160)
    (h3 : mReadByte c2 = POut.ok (b3, c3)) (hop3 : Opcode.from_byte b3 = Opcode.PushBytes 20)
    (h4 : mReadExact 20 c3 = POut.ok (mid, c4))
    (h5 : mReadByte c4 = POut.ok (b5, c5)) (hop5 : Opcode.from_byte b5 = Opcode.OP_EQUALVERIFY)
    (h6 : mReadByte c5 = POut.ok (b6, c6)) (hop6 : Opcode.from_byte b6 = Opcode.OP_CHECKSIG) :
    parse_p2pkh c1 = POut.ok (ScriptBuilder.build ["OP_DUP", "OP_HASH160", "OP_PUSHBYTES_20",
      hexEncode mid, "OP_EQUALVERIFY", "OP_CHECKSIG"], c6) := by
  unfold parse_p2pkh
  rw [bind_ok h2]
  simp only [hop2, ne_eq, not_true_eq_false, if_false, ite_false]
  rw [bind_ok h3]
  simp only [hop3, ne_eq, not_true_eq_false, if_false, ite_false]
  rw [bind_ok h4]
  rw [bind_ok h5]
  simp only [hop5, ne_eq, not_true_eq_false, if_false, ite_false]
  rw [bind_ok h6]
  simp only [hop6, ne_eq, not_true_eq_false, if_false, ite_false]
  rw [bind_ok (liftE_ok (show ScriptBuilder.push_opcode ScriptBuilder.new Opcode.OP_DUP
    = Except.ok ["OP_DUP"] from rfl) c6)]
  rw [bind_ok (liftE_ok (show ScriptBuilder.push_opcode ["OP_DUP"] Opcode.OP_HASH160
    = Except.ok ["OP_DUP", "OP_HASH160"] from rfl) c6)]
  rw [bind_ok (liftE_ok (show ScriptBuilder.push_opcode ["OP_DUP", "OP_HASH160"] (Opcode.PushBytes 20)
    = Except.ok ["OP_DUP", "OP_HASH160", "OP_PUSHBYTES_20"] from rfl) c6)]
  rw [bind_ok (liftE_ok (show ScriptBuilder.push_opcode
      (ScriptBuilder.push_bytes ["OP_DUP", "OP_HASH160", "OP_PUSHBYTES_20"] mid) Opcode.OP_EQUALVERIFY
    = Except.ok ["OP_DUP", "OP_HASH160", "OP_PUSHBYTES_20", hexEncode mid, "OP_EQUALVERIFY"] from rfl) c6)]
  rw [bind_ok (liftE_ok (show ScriptBuilder.push_opcode
      ["OP_DUP", "OP_HASH160", "OP_PUSHBYTES_20", hexEncode mid, "OP_EQUALVERIFY"] Opcode.OP_CHECKSIG
    = Except.ok ["OP_DUP", "OP_HASH160", "OP_PUSHBYTES_20", hexEncode mid, "OP_EQUALVERIFY",
        "OP_CHECKSIG"] from rfl) c6)]
  rw [pure_eval]
theorem build_p2pkh_hex (mid : List Nat) :
    ScriptBuilder.build ["OP_DUP", "OP_HASH160", "OP_PUSHBYTES_20",
        hexEncode mid, "OP_EQUALVERIFY", "OP_CHECKSIG"]
      = "OP_DUP OP_HASH160 OP_PUSHBYTES_20 " ++ hexEncode mid
          ++ " OP_EQUALVERIFY OP_CHECKSIG" :=
  build_p2pkh_tokens (List.flatten (mid.map byteHexChars))

theorem hexEncode_data_length (bs : List Nat) : (hexEncode bs).data.length = 2 * bs.length := by
  induction bs with
  | nil => rfl
  | cons b t ih =>
      have e : (hexEncode (b :: t)).data = byteHexChars b ++ (hexEncode t).data := rfl
      rw [e, List.length_append, ih]
      simp [byteHexChars]
      omega

theorem hexDigit_range : ∀ n : Nat, n < 16 →
    (('0' ≤ hexDigit n ∧ hexDigit n ≤ '9') ∨ ('a' ≤ hexDigit n ∧ hexDigit n ≤ 'f')) := by
  decide

theorem hexEncode_data_chars (bs : List Nat) (hlt : ∀ b ∈ bs, b < 256) :
    ∀ ch ∈ (hexEncode bs).data,
      (('0' ≤ ch ∧ ch ≤ '9') ∨ ('a' ≤ ch ∧ ch ≤ 'f')) := by
  induction bs with
  | nil => intro ch hch; simp [hexEncode] at hch
  | cons b t ih =>
      intro ch hch
      have e : (hexEncode (b :: t)).data = byteHexChars b ++ (hexEncode t).data := rfl
      rw [e] at hch
      rcases List.mem_append.mp hch with hl | hr
      · have hb : b < 256 := hlt b (by simp)
        have h1 : b / 16 < 16 := Nat.div_lt_of_lt_mul (by omega)
        have h2 : b % 16 < 16 := Nat.mod_lt _ (by omega)
        simp [byteHexChars] at hl
        rcases hl with rfl | rfl
        · exact hexDigit_range _ h1
        · exact hexDigit_range _ h2
      · exact ih (fun x hx => hlt x (by simp [hx])) ch hr
theorem build_p2ms33_hex (m1 m2 : List Nat) :
    ScriptBuilder.build ["OP_1", "OP_PUSHBYTES_33", hexEncode m1, "OP_PUSHBYTES_33",
        hexEncode m2, "OP_2", "OP_CHECKMULTISIG"]
      = "OP_1 OP_PUSHBYTES_33 " ++ hexEncode m1 ++ " OP_PUSHBYTES_33 " ++ hexEncode m2
          ++ " OP_2 OP_CHECKMULTISIG" :=
  build_p2ms33_tokens (List.flatten (m1.map byteHexChars)) (List.flatten (m2.map byteHexChars))

theorem mReadByte_ok_inv {c c' : Cursor} {b : Nat} (h : mReadByte c = POut.ok (b, c')) :
    c' = ⟨c.data, c.pos + 1⟩ ∧ c.pos < c.data.length := by
  unfold mReadByte readExact at h
  by_cases hc : min c.pos c.data.length + 1 ≤ c.data.length
  · rw [if_pos hc] at h
    simp at h
    obtain ⟨_, h2⟩ := h
    refine ⟨?_, by omega⟩
    cases c'
    simp_all
  · rw [if_neg hc] at h
    simp at h

set_option maxRecDepth 8000

/-! ### Claim theorems -/

/-- C1 (code_bug): the claim says `StandardScripts::parse` returns
`UnexpectedEof` and never panics on any truncated input, including a
push-data length exceeding the remaining buffer; but the direct slicing in
`Opcode::read_bytes` (reached from `parse_data` on input `6a 4b`) and in the
`parse_p2ms` key loop (reached on input `51 4b`) goes out of bounds and
panics instead of returning an error. -/
theorem parse_push_overrun_panics :
    parse ⟨[106, 75], 0⟩ = POut.panic ∧ parse ⟨[81, 75], 0⟩ = POut.panic := ⟨rfl, rfl⟩

/-- C2 counterexample: the input `51 21 <33 zero bytes> 21 <33 zero bytes>
52 ae` parses successfully (as `main.rs` itself expects), rather than
failing as the claim states. -/
theorem p2ms_pushbytes33_succeeds_cex :
    parse ⟨81 :: 33 :: (List.replicate 33 0 ++ 33 :: (List.replicate 33 0 ++ [82, 174])), 0⟩
      = POut.ok ("OP_1 OP_PUSHBYTES_33 " ++ hexEncode (List.replicate 33 0)
          ++ " OP_PUSHBYTES_33 " ++ hexEncode (List.replicate 33 0) ++ " OP_2 OP_CHECKMULTISIG",
          ⟨81 :: 33 :: (List.replicate 33 0 ++ 33 :: (List.replicate 33 0 ++ [82, 174])), 71⟩) := by
  rfl

/-- C2 (corrected): the multisig key loop accepts every `PushBytes(n)`
opcode as a public-key push, not only `PushBytes(65)`; so the script
`51 21 <33-byte key> 21 <33-byte key> 52 ae` parses successfully, with the
two 33-byte pushes emitted as `OP_PUSHBYTES_33` plus the hex of the key. -/
theorem p2ms_pushbytes33_spec (k1 k2 : List Nat) (hk1 : k1.length = 33) (hk2 : k2.length = 33) :
    parse ⟨81 :: 33 :: (k1 ++ 33 :: (k2 ++ [82, 174])), 0⟩
      = POut.ok ("OP_1 OP_PUSHBYTES_33 " ++ hexEncode k1 ++ " OP_PUSHBYTES_33 "
          ++ hexEncode k2 ++ " OP_2 OP_CHECKMULTISIG",
          ⟨81 :: 33 :: (k1 ++ 33 :: (k2 ++ [82, 174])), 71⟩) := by
  have hlen : (81 :: 33 :: (k1 ++ 33 :: (k2 ++ [82, 174]))).length = 71 := by
    simp [hk1, hk2]
  have h0 : mReadByte ⟨81 :: 33 :: (k1 ++ 33 :: (k2 ++ [82, 174])), 0⟩
      = POut.ok (81, ⟨81 :: 33 :: (k1 ++ 33 :: (k2 ++ [82, 174])), 1⟩) :=
    mReadByte_at _ [] _ 81 0 rfl rfl
  have h1 : mReadByte ⟨81 :: 33 :: (k1 ++ 33 :: (k2 ++ [82, 174])), 1⟩
      = POut.ok (33, ⟨81 :: 33 :: (k1 ++ 33 :: (k2 ++ [82, 174])), 2⟩) :=
    mReadByte_at _ [81] _ 33 1 rfl rfl
  rw [parse_to_p2ms h0 h1 (by decide) (by decide) (by decide) (by decide) (by decide) (by decide)]
  norm_num
  rw [parse_p2ms_entry h0 (by decide)]
  rw [bind_ok (liftE_ok (show ScriptBuilder.push_opcode ScriptBuilder.new Opcode.OP_1
    = Except.ok ["OP_1"] from rfl) _)]
  have hloop : p2msLoop 72 ["OP_1"] 0 ⟨81 :: 33 :: (k1 ++ 33 :: (k2 ++ [82, 174])), 1⟩
      = MsLoopOut.done ["OP_1", "OP_PUSHBYTES_" ++ toString 33, hexEncode k1,
          "OP_PUSHBYTES_" ++ toString 33, hexEncode k2, "OP_" ++ toString 2] 2 2
          ⟨81 :: 33 :: (k1 ++ 33 :: (k2 ++ [82, 174])), 70⟩ := by
    rw [p2msLoop_push 71 72 ["OP_1"] 0 _ [81] k1 (33 :: (k2 ++ [82, 174])) 33 33 1
      (by norm_num) (by simp) rfl (by decide) hk1]
    norm_num
    rw [p2msLoop_push 70 71 _ 1 _ (81 :: 33 :: k1) k2 [82, 174] 33 33 35
      (by norm_num) (by simp) (by simp [hk1]) (by decide) hk2]
    norm_num
    rw [p2msLoop_num 69 70 _ 2 _ (81 :: 33 :: (k1 ++ 33 :: k2)) [174] 82 2 69
      (by norm_num) (by simp) (by simp [hk1, hk2]) (by decide)]
    rfl
  have hloop' : p2msLoop
      ((⟨81 :: 33 :: (k1 ++ 33 :: (k2 ++ [82, 174])), 1⟩ : Cursor).data.length + 1)
      ["OP_1"] 0 ⟨81 :: 33 :: (k1 ++ 33 :: (k2 ++ [82, 174])), 1⟩
      = MsLoopOut.done ["OP_1", "OP_PUSHBYTES_" ++ toString 33, hexEncode k1,
          "OP_PUSHBYTES_" ++ toString 33, hexEncode k2, "OP_" ++ toString 2] 2 2
          ⟨81 :: 33 :: (k1 ++ 33 :: (k2 ++ [82, 174])), 70⟩ := by
    rw [show (⟨81 :: 33 :: (k1 ++ 33 :: (k2 ++ [82, 174])), 1⟩ : Cursor).data.length + 1 = 72 by
      rw [show (⟨81 :: 33 :: (k1 ++ 33 :: (k2 ++ [82, 174])), 1⟩ : Cursor).data
        = 81 :: 33 :: (k1 ++ 33 :: (k2 ++ [82, 174])) from rfl, hlen]]
    exact hloop
  rw [bind_ok (runP2msLoop_done hloop')]
  unfold p2msFinish
  rw [if_neg (show ¬(2 ≠ 2) by decide)]
  simp only []
  rw [bind_ok (pure_eval () _)]
  unfold p2msTail
  have h70 : mReadByte ⟨81 :: 33 :: (k1 ++ 33 :: (k2 ++ [82, 174])), 70⟩
      = POut.ok (174, ⟨81 :: 33 :: (k1 ++ 33 :: (k2 ++ [82, 174])), 71⟩) :=
    mReadByte_at _ (81 :: 33 :: (k1 ++ 33 :: (k2 ++ [82]))) [] 174 70 (by simp)
      (by simp [hk1, hk2])
  rw [bind_ok h70]
  simp only [show Opcode.from_byte 174 = Opcode.OP_CHECKMULTISIG from by decide, ne_eq,
    not_true_eq_false, if_false, ite_false]
  rw [bind_ok (liftE_ok (show ScriptBuilder.push_opcode
      ["OP_1", "OP_PUSHBYTES_" ++ toString 33, hexEncode k1, "OP_PUSHBYTES_" ++ toString 33,
        hexEncode k2, "OP_" ++ toString 2] Opcode.OP_CHECKMULTISIG
    = Except.ok ["OP_1", "OP_PUSHBYTES_" ++ toString 33, hexEncode k1,
        "OP_PUSHBYTES_" ++ toString 33, hexEncode k2, "OP_" ++ toString 2,
        "OP_CHECKMULTISIG"] from rfl) _)]
  rw [pure_eval]
  show POut.ok (ScriptBuilder.build ["OP_1", "OP_PUSHBYTES_33", hexEncode k1,
      "OP_PUSHBYTES_33", hexEncode k2, "OP_2", "OP_CHECKMULTISIG"], _) = _
  rw [build_p2ms33_hex]

/-- C2 witness: the corrected claim at two concrete distinct 33-byte keys. -/
theorem p2ms_pushbytes33_spec_witness :
    parse ⟨81 :: 33 :: (List.replicate 33 1 ++ 33 :: (List.replicate 33 2 ++ [82, 174])), 0⟩
      = POut.ok ("OP_1 OP_PUSHBYTES_33 " ++ hexEncode (List.replicate 33 1)
          ++ " OP_PUSHBYTES_33 " ++ hexEncode (List.replicate 33 2) ++ " OP_2 OP_CHECKMULTISIG",
          ⟨81 :: 33 :: (List.replicate 33 1 ++ 33 :: (List.replicate 33 2 ++ [82, 174])), 71⟩) :=
  p2ms_pushbytes33_spec (List.replicate 33 1) (List.replicate 33 2) (by simp) (by simp)

/-- C3 counterexample: the 1-of-1 multisig script `51 41 <65 zero bytes> 51
ae` does not parse successfully; the second opcode byte 81 inside the key
loop hits the catch-all arm and fails. -/
theorem p2ms_op1_count_fails_cex :
    parse ⟨81 :: 65 :: (List.replicate 65 0 ++ [81, 174]), 0⟩
      = POut.err ErrKind.invalidData "Invalid Script. Expected a PUSH_BYTES_* or OP_1..16" := by
  rfl

/-- C3 (corrected): opcode byte 81 (`OP_1`) is accepted as the multisig
threshold, but inside the key loop only a `Num` opcode (bytes 82 to 96,
values 2 to 16) terminates the loop as the declared key count; `OP_1` falls
to the catch-all arm, so every script `51 41 <65-byte key> 51 ae` fails with
the invalid-multisig-body error instead of parsing. -/
theorem p2ms_op1_count_spec (key : List Nat) (hk : key.length = 65) :
    parse ⟨81 :: 65 :: (key ++ [81, 174]), 0⟩
      = POut.err ErrKind.invalidData msgInvalidExpectedPushOrNum := by
  have h0 : mReadByte ⟨81 :: 65 :: (key ++ [81, 174]), 0⟩
      = POut.ok (81, ⟨81 :: 65 :: (key ++ [81, 174]), 1⟩) :=
    mReadByte_at _ [] _ 81 0 rfl rfl
  have h1 : mReadByte ⟨81 :: 65 :: (key ++ [81, 174]), 1⟩
      = POut.ok (65, ⟨81 :: 65 :: (key ++ [81, 174]), 2⟩) :=
    mReadByte_at _ [81] _ 65 1 rfl rfl
  rw [parse_to_p2ms h0 h1 (by decide) (by decide) (by decide) (by decide) (by decide) (by decide)]
  norm_num
  rw [parse_p2ms_entry h0 (by decide)]
  rw [bind_ok (liftE_ok (show ScriptBuilder.push_opcode ScriptBuilder.new Opcode.OP_1
    = Except.ok ["OP_1"] from rfl) _)]
  have hloop : p2msLoop 70 ["OP_1"] 0 ⟨81 :: 65 :: (key ++ [81, 174]), 1⟩
      = MsLoopOut.err ErrKind.invalidData msgInvalidExpectedPushOrNum := by
    rw [p2msLoop_push 69 70 ["OP_1"] 0 _ [81] key [81, 174] 65 65 1
      (by norm_num) (by simp) rfl (by decide) hk]
    norm_num
    exact p2msLoop_op1_err 68 69 _ _ _ (81 :: 65 :: key) [174] 67
      (by norm_num) (by simp) (by simp [hk])
  have hloop' : p2msLoop ((⟨81 :: 65 :: (key ++ [81, 174]), 1⟩ : Cursor).data.length + 1)
      ["OP_1"] 0 ⟨81 :: 65 :: (key ++ [81, 174]), 1⟩
      = MsLoopOut.err ErrKind.invalidData msgInvalidExpectedPushOrNum := by
    rw [show (⟨81 :: 65 :: (key ++ [81, 174]), 1⟩ : Cursor).data.length + 1 = 70 by
      simp [hk]]
    exact hloop
  rw [bind_err (runP2msLoop_err hloop')]

/-- C3 witness: the corrected claim at a concrete 65-byte key. -/
theorem p2ms_op1_count_spec_witness :
    parse ⟨81 :: 65 :: (List.replicate 65 7 ++ [81, 174]), 0⟩
      = POut.err ErrKind.invalidData msgInvalidExpectedPushOrNum :=
  p2ms_op1_count_spec (List.replicate 65 7) (by simp)

/-- C4 (confirmed): `Opcode::from_byte` is total and deterministic on all
256 byte values and agrees with the byte-to-opcode table exactly as the
specification states it (0 to `OP_0`, 1-75 to `PushBytes`, 81 to `OP_1`,
82-96 to `Num (byte - 80)` i.e. 2-16, 106/118/135/136/169/172/174 to the
named opcodes, everything else to `UnsupportedOpcode`). -/
theorem from_byte_matches_table :
    ∀ b : Fin 256, Opcode.from_byte b.val = from_byte_spec_table b.val := by decide

/-- C6 (confirmed): for every input of the form `76 a9 14 <20 bytes> 88 ac`
(bytes below 256), `parse` succeeds and returns exactly the string
`OP_DUP OP_HASH160 OP_PUSHBYTES_20 <40 lower-case hex chars>
OP_EQUALVERIFY OP_CHECKSIG`, tokens joined by single spaces with no
trailing space: the hex token has exactly 40 characters, all of them
lower-case hexadecimal digits. -/
theorem parse_p2pkh_output_spec (payload : List Nat) (h20 : payload.length = 20)
    (hlt : ∀ b ∈ payload, b < 256) :
    parse ⟨118 :: 169 :: 20 :: (payload ++ [136, 172]), 0⟩
      = POut.ok ("OP_DUP OP_HASH160 OP_PUSHBYTES_20 " ++ hexEncode payload
          ++ " OP_EQUALVERIFY OP_CHECKSIG",
          ⟨118 :: 169 :: 20 :: (payload ++ [136, 172]), 25⟩)
    ∧ (hexEncode payload).data.length = 40
    ∧ ∀ ch ∈ (hexEncode payload).data,
        (('0' ≤ ch ∧ ch ≤ '9') ∨ ('a' ≤ ch ∧ ch ≤ 'f')) := by
  refine ⟨?_, by rw [hexEncode_data_length, h20], hexEncode_data_chars payload hlt⟩
  have h1 : mReadByte ⟨118 :: 169 :: 20 :: (payload ++ [136, 172]), 0⟩
      = POut.ok (118, ⟨118 :: 169 :: 20 :: (payload ++ [136, 172]), 1⟩) :=
    mReadByte_at _ [] _ 118 0 rfl rfl
  rw [parse_to_p2pkh h1 (by decide)]
  have h2 : mReadByte ⟨118 :: 169 :: 20 :: (payload ++ [136, 172]), 1⟩
      = POut.ok (169, ⟨118 :: 169 :: 20 :: (payload ++ [136, 172]), 2⟩) :=
    mReadByte_at _ [118] _ 169 1 rfl rfl
  have h3 : mReadByte ⟨118 :: 169 :: 20 :: (payload ++ [136, 172]), 2⟩
      = POut.ok (20, ⟨118 :: 169 :: 20 :: (payload ++ [136, 172]), 3⟩) :=
    mReadByte_at _ [118, 169] _ 20 2 rfl rfl
  have h4 : mReadExact 20 ⟨118 :: 169 :: 20 :: (payload ++ [136, 172]), 3⟩
      = POut.ok (payload, ⟨118 :: 169 :: 20 :: (payload ++ [136, 172]), 23⟩) :=
    mReadExact_at _ [118, 169, 20] payload [136, 172] 20 3 rfl rfl h20
  have h5 : mReadByte ⟨118 :: 169 :: 20 :: (payload ++ [136, 172]), 23⟩
      = POut.ok (136, ⟨118 :: 169 :: 20 :: (payload ++ [136, 172]), 24⟩) :=
    mReadByte_at _ ([118, 169, 20] ++ payload) [172] 136 23 (by simp)
      (by simp [h20])
  have h6 : mReadByte ⟨118 :: 169 :: 20 :: (payload ++ [136, 172]), 24⟩
      = POut.ok (172, ⟨118 :: 169 :: 20 :: (payload ++ [136, 172]), 25⟩) :=
    mReadByte_at _ (([118, 169, 20] ++ payload) ++ [136]) [] 172 24 (by simp)
      (by simp [h20])
  rw [parse_p2pkh_steps h2 (by decide) h3 (by decide) h4 h5 (by decide) h6 (by decide)]
  rw [build_p2pkh_hex]

/-- C6 witness: the P2PKH output claim at the all-zero 20-byte hash. -/
theorem parse_p2pkh_output_spec_witness :
    parse ⟨118 :: 169 :: 20 :: (List.replicate 20 0 ++ [136, 172]), 0⟩
      = POut.ok ("OP_DUP OP_HASH160 OP_PUSHBYTES_20 " ++ hexEncode (List.replicate 20 0)
          ++ " OP_EQUALVERIFY OP_CHECKSIG",
          ⟨118 :: 169 :: 20 :: (List.replicate 20 0 ++ [136, 172]), 25⟩) :=
  (parse_p2pkh_output_spec (List.replicate 20 0) (by simp) (by simp)).1

/-- C7 counterexample: `read_exact` of 2 bytes on a 1-byte buffer at
position 0 fails with `UnexpectedEof` but moves the position to 1 (the end
of the buffer); the position is not left unchanged as the claim states. -/
theorem readExact_eof_pos_cex :
    readExact 2 ⟨[65], 0⟩
      = (Except.error (ErrKind.unexpectedEof, "failed to fill whole buffer"), ⟨[65], 1⟩)
    ∧ (1 : Nat) ≠ 0 := ⟨rfl, by decide⟩

/-- C7 (corrected): for a cursor with `pos ≤ length`, `read_exact` of `n`
bytes either (when `n` bytes remain) yields exactly the next `n` bytes and
advances the position by exactly `n`, or (when fewer than `n` bytes remain)
fails with `UnexpectedEof` and leaves the position at the end of the buffer
— not at its original value. -/
theorem readExact_spec (n : Nat) (c : Cursor) (h : c.pos ≤ c.data.length) :
    (c.pos + n ≤ c.data.length →
      readExact n c = (Except.ok ((c.data.drop c.pos).take n), ⟨c.data, c.pos + n⟩)
      ∧ ((c.data.drop c.pos).take n).length = n)
    ∧ (c.data.length < c.pos + n →
      readExact n c = (Except.error (ErrKind.unexpectedEof, "failed to fill whole buffer"),
        ⟨c.data, c.data.length⟩)) := by
  constructor
  · intro hle
    constructor
    · simp only [readExact, Nat.min_eq_left h]
      rw [if_pos hle]
    · rw [List.length_take, List.length_drop]
      omega
  · intro hgt
    simp only [readExact, Nat.min_eq_left h]
    rw [if_neg (by omega)]

/-- C7 witness: the success branch of the corrected claim at a concrete
one-byte read. -/
theorem readExact_spec_witness :
    readExact 1 ⟨[65], 0⟩ = (Except.ok [65], ⟨[65], 1⟩)
    ∧ ([65] : List Nat).length = 1 :=
  (readExact_spec 1 ⟨[65], 0⟩ (by decide)).1 (by decide)

/-- C9 (confirmed): `parse` is a pure function of the buffer contents and
the starting position: two cursors carrying equal byte sequences and equal
positions produce identical results.  (The Rust functions touch no state
other than the cursor, so the embedding is a function of the cursor alone.) -/
theorem parse_deterministic (c₁ c₂ : Cursor) (hd : c₁.data = c₂.data)
    (hp : c₁.pos = c₂.pos) : parse c₁ = parse c₂ := by
  cases c₁; cases c₂; simp_all

/-- C9 witness: determinism instantiated at a concrete cursor. -/
theorem parse_deterministic_witness : parse ⟨[0], 0⟩ = parse ⟨[0], 0⟩ :=
  parse_deterministic ⟨[0], 0⟩ ⟨[0], 0⟩ rfl rfl

/-- C10 (confirmed): in the classifier's ambiguous branch the rewind runs
only after two successful one-byte reads, so the position is at least 2,
the subtraction cannot underflow, the rewound cursor sits exactly at the
position `parse` was invoked at (never before it), and the multisig decoder
re-reads exactly the same two bytes from that position. -/
theorem classifier_rewind_safe (c c1 c2 : Cursor) (b1 b2 : Nat)
    (h1 : mReadByte c = POut.ok (b1, c1)) (h2 : mReadByte c1 = POut.ok (b2, c2))
    (hn1 : Opcode.from_byte b1 ≠ Opcode.PushBytes 65)
    (hn2 : Opcode.from_byte b1 ≠ Opcode.OP_DUP)
    (hn3 : Opcode.from_byte b1 ≠ Opcode.OP_HASH160)
    (hn4 : Opcode.from_byte b1 ≠ Opcode.OP_RETURN)
    (hn5 : Opcode.from_byte b1 ≠ Opcode.OP_0)
    (hn6 : ¬(Opcode.from_byte b1 = Opcode.OP_1 ∧ Opcode.from_byte b2 = Opcode.PushBytes 32)) :
    2 ≤ c2.pos ∧ c2.pos - 2 = c.pos
    ∧ parse c = parse_p2ms ⟨c.data, c.pos⟩
    ∧ mReadByte ⟨c.data, c.pos⟩ = POut.ok (b1, ⟨c.data, c.pos + 1⟩)
    ∧ mReadByte ⟨c.data, c.pos + 1⟩ = POut.ok (b2, ⟨c.data, c.pos + 2⟩) := by
  obtain ⟨hc1, hlt1⟩ := mReadByte_ok_inv h1
  subst hc1
  obtain ⟨hc2, hlt2⟩ := mReadByte_ok_inv h2
  subst hc2
  refine ⟨by simp, by simp, ?_, ?_, ?_⟩
  · rw [parse_to_p2ms h1 h2 hn1 hn2 hn3 hn4 hn5 hn6]
    show parse_p2ms ⟨c.data, c.pos + 1 + 1 - 2⟩ = _
    have he : c.pos + 1 + 1 - 2 = c.pos := by omega
    rw [he]
  · exact h1
  · exact h2

/-- C10 witness: the rewind-safety claim at the concrete two-byte input
`51 52`. -/
theorem classifier_rewind_safe_witness :
    2 ≤ (⟨[81, 82], 2⟩ : Cursor).pos ∧ (⟨[81, 82], 2⟩ : Cursor).pos - 2 = (⟨[81, 82], 0⟩ : Cursor).pos
    ∧ parse ⟨[81, 82], 0⟩ = parse_p2ms ⟨[81, 82], 0⟩
    ∧ mReadByte ⟨[81, 82], 0⟩ = POut.ok (81, ⟨[81, 82], 1⟩)
    ∧ mReadByte ⟨[81, 82], 1⟩ = POut.ok (82, ⟨[81, 82], 2⟩) := by
  have h := classifier_rewind_safe ⟨[81, 82], 0⟩ ⟨[81, 82], 1⟩ ⟨[81, 82], 2⟩ 81 82
    (by decide) (by decide) (by decide) (by decide) (by decide) (by decide) (by decide) (by decide)
  simpa using h

theorem from_byte_large (b : Nat) (hb : 256 ≤ b) :
    Opcode.from_byte b = Opcode.UnsupportedOpcode := by
  unfold Opcode.from_byte
  have q1 : ¬(b = 169) := by omega
  have q2 : ¬(1 ≤ b ∧ b ≤ 75) := by omega
  have q3 : ¬(b = 172) := by omega
  have q4 : ¬(b = 135) := by omega
  have q5 : ¬(b = 136) := by omega
  have q6 : ¬(b = 174) := by omega
  have q7 : ¬(b = 118) := by omega
  have q8 : ¬(b = 106) := by omega
  have q9 : ¬(b = 0) := by omega
  have q10 : ¬(b = 81) := by omega
  have q11 : ¬(82 ≤ b ∧ b ≤ 96) := by omega
  rw [if_neg q1, if_neg q2, if_neg q3, if_neg q4, if_neg q5, if_neg q6, if_neg q7,
    if_neg q8, if_neg q9, if_neg q10, if_neg q11]

theorem from_byte_Num_range (b v : Nat) (h : Opcode.from_byte b = Opcode.Num v) :
    2 ≤ v ∧ v ≤ 16 := by
  rcases Nat.lt_or_ge b 256 with hb | hb
  · have key : ∀ b' : Nat, b' < 256 → ((match Opcode.from_byte b' with
        | Opcode.Num v' => decide (2 ≤ v' ∧ v' ≤ 16)
        | _ => true) = true) := by decide
    have hk := key b hb
    rw [h] at hk
    exact of_decide_eq_true hk
  · rw [from_byte_large b hb] at h
    exact absurd h (by simp)

theorem p2msLoop_done_n_range : ∀ (f : Nat) (sb : List String) (k : Nat) (c : Cursor)
    {sb' : List String} {k' n : Nat} {c' : Cursor},
    p2msLoop f sb k c = MsLoopOut.done sb' k' n c' → 2 ≤ n ∧ n ≤ 16 := by
  intro f
  induction f with
  | zero => intro sb k c sb' k' n c' h; exact absurd h (by simp [p2msLoop])
  | succ f ih =>
      intro sb k c sb' k' n c' h
      unfold p2msLoop at h
      split at h
      · exact absurd h (by simp)
      · split at h
        · -- Num arm
          split at h
          · exact absurd h (by simp)
          · rename_i heqOp _ sb1 heqPush
            simp only [MsLoopOut.done.injEq] at h
            obtain ⟨-, -, hv, -⟩ := h
            subst hv
            exact from_byte_Num_range _ _ heqOp
        · -- PushBytes arm
          split at h
          · split at h
            · exact absurd h (by simp)
            · exact ih _ _ _ h
          · exact absurd h (by simp)
        · exact absurd h (by simp)

theorem p2msTail_cm {sb : List String} {c c' : Cursor} {b : Nat}
    (hrb : mReadByte c = POut.ok (b, c'))
    (hcm : Opcode.from_byte b = Opcode.OP_CHECKMULTISIG) :
    p2msTail sb c = POut.ok (ScriptBuilder.build (sb ++ ["OP_CHECKMULTISIG"]), c') := by
  unfold p2msTail
  rw [bind_ok hrb]
  simp only [hcm, ne_eq, not_true_eq_false, if_false, ite_false]
  rw [bind_ok (liftE_ok (show ScriptBuilder.push_opcode sb Opcode.OP_CHECKMULTISIG
    = Except.ok (sb ++ ["OP_CHECKMULTISIG"]) from rfl) _)]
  rw [pure_eval]

theorem p2msTail_ncm {sb : List String} {c c' : Cursor} {b : Nat}
    (hrb : mReadByte c = POut.ok (b, c'))
    (hcm : Opcode.from_byte b ≠ Opcode.OP_CHECKMULTISIG) :
    p2msTail sb c = POut.err ErrKind.invalidData msgExpectedCheckMultisig := by
  unfold p2msTail
  rw [bind_ok hrb]
  simp only [if_pos hcm]
  rfl

theorem p2msFinish_eq_ne {tOp : Opcode} {sb : List String} {k n : Nat} {c : Cursor}
    (hk : k ≠ n) :
    p2msFinish tOp sb k n c = POut.err ErrKind.invalidData msgKeyCountMismatch := by
  unfold p2msFinish
  rw [if_pos hk]
  rfl

theorem p2msFinish_eq_op1 {sb : List String} {k n : Nat} {c : Cursor} (hk : k = n) :
    p2msFinish Opcode.OP_1 sb k n c = p2msTail sb c := by
  unfold p2msFinish
  rw [if_neg (by simp [hk])]
  simp only []
  rw [bind_ok (pure_eval () c)]

theorem p2msFinish_eq_num_lt {sb : List String} {k n t : Nat} {c : Cursor}
    (hk : k = n) (hlt : n < t) :
    p2msFinish (Opcode.Num t) sb k n c
      = POut.err ErrKind.invalidData msgThresholdExceedsKeys := by
  unfold p2msFinish
  rw [if_neg (by simp [hk])]
  simp only [if_pos hlt]
  rfl

theorem p2msFinish_eq_num_ge {sb : List String} {k n t : Nat} {c : Cursor}
    (hk : k = n) (hge : ¬ n < t) :
    p2msFinish (Opcode.Num t) sb k n c = p2msTail sb c := by
  unfold p2msFinish
  rw [if_neg (by simp [hk])]
  simp only [if_neg hge]
  rw [bind_ok (pure_eval () c)]

/-- C5 (confirmed): after the multisig key loop exits with observed key
count `k`, declared key count `n` and threshold `t` (the first opcode, 1 for
`OP_1` or the inner value of a `Num`), and with a next byte `b` available:
the parse fails with the key-count-mismatch error exactly when `k` differs
from `n`; otherwise it fails with the threshold-exceeds-keys error exactly
when `n < t` (for an `OP_1` threshold the code skips the check, but the
loop's declared count is always at least 2, so the equivalence still holds);
otherwise the next opcode must be `OP_CHECKMULTISIG` — a template-mismatch
error when it is not, success with the built string when it is. -/
theorem p2msFinish_spec (tOp : Opcode) (t f : Nat) (sb0 sb : List String) (k n : Nat)
    (c0 c c' : Cursor) (b : Nat)
    (ht : (tOp = Opcode.OP_1 ∧ t = 1) ∨ tOp = Opcode.Num t)
    (hloop : p2msLoop f sb0 0 c0 = MsLoopOut.done sb k n c)
    (hrb : mReadByte c = POut.ok (b, c')) :
    ((p2msFinish tOp sb k n c = POut.err ErrKind.invalidData msgKeyCountMismatch) ↔ k ≠ n)
    ∧ (k = n →
        ((p2msFinish tOp sb k n c = POut.err ErrKind.invalidData msgThresholdExceedsKeys)
          ↔ n < t))
    ∧ (k = n → t ≤ n →
        (Opcode.from_byte b = Opcode.OP_CHECKMULTISIG →
          p2msFinish tOp sb k n c
            = POut.ok (ScriptBuilder.build (sb ++ ["OP_CHECKMULTISIG"]), c'))
        ∧ (Opcode.from_byte b ≠ Opcode.OP_CHECKMULTISIG →
          p2msFinish tOp sb k n c
            = POut.err ErrKind.invalidData msgExpectedCheckMultisig)) := by
  obtain ⟨hn2, hn16⟩ := p2msLoop_done_n_range f sb0 0 c0 hloop
  have htail : (p2msTail sb c = POut.ok (ScriptBuilder.build (sb ++ ["OP_CHECKMULTISIG"]), c'))
      ∨ (p2msTail sb c = POut.err ErrKind.invalidData msgExpectedCheckMultisig) := by
    by_cases hcm : Opcode.from_byte b = Opcode.OP_CHECKMULTISIG
    · exact Or.inl (p2msTail_cm hrb hcm)
    · exact Or.inr (p2msTail_ncm hrb hcm)
  have htail_ne_key : p2msTail sb c ≠ POut.err ErrKind.invalidData msgKeyCountMismatch := by
    rcases htail with h | h
    · rw [h]; simp
    · rw [h]; decide
  have htail_ne_thr : p2msTail sb c ≠ POut.err ErrKind.invalidData msgThresholdExceedsKeys := by
    rcases htail with h | h
    · rw [h]; simp
    · rw [h]; decide
  refine ⟨?_, ?_, ?_⟩
  · constructor
    · intro hEq hk
      rcases ht with ⟨rfl, rfl⟩ | rfl
      · rw [p2msFinish_eq_op1 hk] at hEq
        exact htail_ne_key hEq
      · by_cases hlt : n < t
        · rw [p2msFinish_eq_num_lt hk hlt] at hEq
          exact absurd hEq (by decide)
        · rw [p2msFinish_eq_num_ge hk hlt] at hEq
          exact htail_ne_key hEq
    · intro hk
      exact p2msFinish_eq_ne hk
  · intro hk
    constructor
    · intro hEq
      rcases ht with ⟨rfl, rfl⟩ | rfl
      · rw [p2msFinish_eq_op1 hk] at hEq
        exact absurd hEq htail_ne_thr
      · by_cases hlt : n < t
        · exact hlt
        · rw [p2msFinish_eq_num_ge hk hlt] at hEq
          exact absurd hEq htail_ne_thr
    · intro hlt
      rcases ht with ⟨rfl, rfl⟩ | rfl
      · exact absurd hlt (by omega)
      · exact p2msFinish_eq_num_lt hk hlt
  · intro hk hge
    constructor
    · intro hcm
      rcases ht with ⟨rfl, rfl⟩ | rfl
      · rw [p2msFinish_eq_op1 hk]
        exact p2msTail_cm hrb hcm
      · rw [p2msFinish_eq_num_ge hk (by omega)]
        exact p2msTail_cm hrb hcm
    · intro hcm
      rcases ht with ⟨rfl, rfl⟩ | rfl
      · rw [p2msFinish_eq_op1 hk]
        exact p2msTail_ncm hrb hcm
      · rw [p2msFinish_eq_num_ge hk (by omega)]
        exact p2msTail_ncm hrb hcm

/-- C5 witness: the key-count-mismatch branch at a concrete zero-key
2-of-2 loop outcome. -/
theorem p2msFinish_spec_witness :
    p2msFinish (Opcode.Num 2) ["OP_2"] 0 2 ⟨[82, 174], 1⟩
      = POut.err ErrKind.invalidData msgKeyCountMismatch :=
  ((p2msFinish_spec (Opcode.Num 2) 2 1 [] ["OP_2"] 0 2 ⟨[82, 174], 0⟩ ⟨[82, 174], 1⟩
      ⟨[82, 174], 2⟩ 174 (Or.inr rfl) (by rfl) (by rfl)).1).mpr (by decide)

/-- Success results do not depend on bytes beyond the consumed ones: if the
computation succeeds on a buffer, it succeeds identically (same value, same
final position) on the buffer extended by arbitrary extra bytes. -/
def ExtOk {α : Type} (m : M α) : Prop :=
  ∀ (d : List Nat) (p : Nat) (e : List Nat) (a : α) (c' : Cursor),
    m ⟨d, p⟩ = POut.ok (a, c') →
    c'.data = d ∧ m ⟨d ++ e, p⟩ = POut.ok (a, ⟨d ++ e, c'.pos⟩)

theorem readExact_ok_ext {n : Nat} {d : List Nat} {p : Nat} {bs : List Nat} {c1 : Cursor}
    (e : List Nat) (h : readExact n ⟨d, p⟩ = (Except.ok bs, c1)) :
    c1 = ⟨d, p + n⟩ ∧ readExact n ⟨d ++ e, p⟩ = (Except.ok bs, ⟨d ++ e, p + n⟩) := by
  unfold readExact at h ⊢
  by_cases hc : min p d.length + n ≤ d.length
  · rw [if_pos hc] at h
    simp only [Prod.mk.injEq, Except.ok.injEq] at h
    obtain ⟨hbs, hc1⟩ := h
    have hcond2 : min p (d ++ e).length + n ≤ (d ++ e).length := by
      rw [List.length_append]
      omega
    rw [if_pos hcond2]
    refine ⟨hc1.symm, ?_⟩
    have hslice : ((d ++ e).drop p).take n = (d.drop p).take n := by
      by_cases hp : p ≤ d.length
      · rw [List.drop_append_of_le_length hp]
        have hn : n ≤ (d.drop p).length := by
          rw [List.length_drop]
          omega
        rw [List.take_append_of_le_length hn]
      · have hn0 : n = 0 := by omega
        subst hn0
        simp
    rw [hslice, hbs]
  · rw [if_neg hc] at h
    exact absurd h (by simp)

theorem extOk_pure {α : Type} (a : α) : ExtOk (pure a : M α) := by
  intro d p e a' c' h
  rw [pure_eval] at h
  simp only [POut.ok.injEq, Prod.mk.injEq] at h
  obtain ⟨ha, hc⟩ := h
  subst ha
  subst hc
  exact ⟨rfl, by rw [pure_eval]⟩

theorem extOk_mThrow {α : Type} (k : ErrKind) (s : String) : ExtOk (mThrow k s : M α) := by
  intro d p e a c' h
  exact absurd h (by simp [mThrow_eval])

theorem extOk_liftE {α : Type} (r : Except (ErrKind × String) α) : ExtOk (liftE r) := by
  intro d p e a c' h
  rcases r with er | a'
  · exact absurd h (by simp [liftE])
  · rw [liftE_ok rfl] at h
    simp only [POut.ok.injEq, Prod.mk.injEq] at h
    obtain ⟨ha, hc⟩ := h
    subst ha
    subst hc
    exact ⟨rfl, by rw [liftE_ok rfl]⟩

theorem extOk_bind {α β : Type} {m : M α} {f : α → M β}
    (hm : ExtOk m) (hf : ∀ a, ExtOk (f a)) : ExtOk (m >>= f) := by
  intro d p e b c'' h
  rcases hm0 : m ⟨d, p⟩ with ⟨a, c1⟩ | ⟨k, s⟩ | _
  · rw [bind_ok hm0] at h
    obtain ⟨hd1, hm1⟩ := hm d p e a c1 hm0
    have hc1 : c1 = ⟨d, c1.pos⟩ := by cases c1; simp_all
    rw [hc1] at h
    obtain ⟨hd2, hf2⟩ := hf a d c1.pos e b c'' h
    exact ⟨hd2, by rw [bind_ok hm1]; exact hf2⟩
  · rw [bind_err hm0] at h
    exact absurd h (by simp)
  · rw [bind_panic hm0] at h
    exact absurd h (by simp)

theorem extOk_ite {α : Type} (P : Prop) [Decidable P] {m1 m2 : M α}
    (h1 : ExtOk m1) (h2 : ExtOk m2) : ExtOk (if P then m1 else m2) := by
  by_cases hp : P
  · rw [if_pos hp]; exact h1
  · rw [if_neg hp]; exact h2

theorem extOk_mReadExact (n : Nat) : ExtOk (mReadExact n) := by
  intro d p e a c' h
  unfold mReadExact at h ⊢
  rcases hre : readExact n ⟨d, p⟩ with ⟨r, c1⟩
  rw [hre] at h
  rcases r with er | bs
  · exact absurd h (by simp)
  · simp only [POut.ok.injEq, Prod.mk.injEq] at h
    obtain ⟨ha, hc⟩ := h
    subst ha
    subst hc
    obtain ⟨hc1, hre2⟩ := readExact_ok_ext e hre
    rw [hre2]
    subst hc1
    exact ⟨rfl, rfl⟩

theorem extOk_mReadByte : ExtOk mReadByte := by
  intro d p e a c' h
  unfold mReadByte at h ⊢
  rcases hre : readExact 1 ⟨d, p⟩ with ⟨r, c1⟩
  rw [hre] at h
  rcases r with er | bs
  · exact absurd h (by simp)
  · simp only [POut.ok.injEq, Prod.mk.injEq] at h
    obtain ⟨ha, hc⟩ := h
    subst ha
    subst hc
    obtain ⟨hc1, hre2⟩ := readExact_ok_ext e hre
    rw [hre2]
    subst hc1
    exact ⟨rfl, rfl⟩

theorem extOk_read_bytes (op : Opcode) : ExtOk op.read_bytes := by
  intro d p e a c' h
  rcases op with _ | _ | _ | _ | _ | _ | _ | _ | _ | v | v | _
  case PushBytes =>
    have h' : (if p + v ≤ d.length then
          POut.ok ((d.drop p).take v, (⟨d, p + v⟩ : Cursor))
        else POut.panic) = POut.ok (a, c') := h
    by_cases hc : p + v ≤ d.length
    · rw [if_pos hc] at h'
      simp only [POut.ok.injEq, Prod.mk.injEq] at h'
      obtain ⟨ha, hc'⟩ := h'
      subst ha
      subst hc'
      have hc2 : p + v ≤ (d ++ e).length := by
        rw [List.length_append]
        omega
      have hg : Opcode.read_bytes (Opcode.PushBytes v) ⟨d ++ e, p⟩
          = (if p + v ≤ (d ++ e).length then
              POut.ok (((d ++ e).drop p).take v, (⟨d ++ e, p + v⟩ : Cursor))
            else POut.panic) := rfl
      rw [hg, if_pos hc2]
      have hslice : ((d ++ e).drop p).take v = (d.drop p).take v := by
        have hp : p ≤ d.length := by omega
        rw [List.drop_append_of_le_length hp]
        have hn : v ≤ (d.drop p).length := by
          rw [List.length_drop]
          omega
        rw [List.take_append_of_le_length hn]
      exact ⟨rfl, by rw [hslice]⟩
    · rw [if_neg hc] at h'
      exact absurd h' (by simp)
  all_goals exact absurd (show POut.err ErrKind.unsupported "This operation is not supported"
    = POut.ok (a, c') from h) (by simp)

theorem extOk_mPosition : ExtOk mPosition := by
  intro d p e a c' h
  have h' : POut.ok ((⟨d, p⟩ : Cursor).pos, (⟨d, p⟩ : Cursor)) = POut.ok (a, c') := h
  simp only [POut.ok.injEq, Prod.mk.injEq] at h'
  obtain ⟨ha, hc⟩ := h'
  subst ha
  subst hc
  exact ⟨rfl, rfl⟩

theorem extOk_mSetPosition (q : Nat) : ExtOk (mSetPosition q) := by
  intro d p e a c' h
  cases a
  have h' : POut.ok ((), (⟨d, q⟩ : Cursor)) = POut.ok ((), c') := h
  simp only [POut.ok.injEq, Prod.mk.injEq, true_and] at h'
  subst h'
  exact ⟨rfl, rfl⟩

theorem readExact_one_decomp {d : List Nat} {p : Nat} {bs : List Nat} {c1 : Cursor}
    (h : readExact 1 ⟨d, p⟩ = (Except.ok bs, c1)) :
    c1 = ⟨d, p + 1⟩ ∧ p < d.length ∧ (d.take p).length = p
    ∧ d.drop p = bs.headD 0 :: d.drop (p + 1) ∧ bs = [bs.headD 0] := by
  unfold readExact at h
  by_cases hc : min p d.length + 1 ≤ d.length
  · rw [if_pos hc] at h
    simp only [Prod.mk.injEq, Except.ok.injEq] at h
    obtain ⟨hbs, hc1⟩ := h
    have hp : p < d.length := by omega
    have hDne : d.drop p ≠ [] := by
      intro hnil
      have := congrArg List.length hnil
      simp [List.length_drop] at this
      omega
    rcases hD : d.drop p with _ | ⟨b, rest⟩
    · exact absurd hD hDne
    · have hrest : rest = d.drop (p + 1) := by
        have h1 : (d.drop p).drop 1 = d.drop (p + 1) := List.drop_drop 1 p d
        rw [hD] at h1
        simpa using h1
      have hbsv : bs = [b] := by
        rw [← hbs, hD]
        rfl
      subst hbsv
      refine ⟨hc1.symm, hp, by rw [List.length_take]; omega, ?_, rfl⟩
      rw [hrest]
      rfl
  · rw [if_neg hc] at h
    exact absurd h (by simp)

theorem p2msLoop_ext : ∀ (f f2 : Nat) (sb : List String) (k : Nat) (d : List Nat)
    (p : Nat) (e : List Nat) {sb' : List String} {k' n : Nat} {c' : Cursor},
    f ≤ f2 → p2msLoop f sb k ⟨d, p⟩ = MsLoopOut.done sb' k' n c' →
    c'.data = d ∧ p2msLoop f2 sb k ⟨d ++ e, p⟩ = MsLoopOut.done sb' k' n ⟨d ++ e, c'.pos⟩ := by
  intro f
  induction f with
  | zero =>
      intro f2 sb k d p e sb' k' n c' hf h
      exact absurd h (by simp [p2msLoop])
  | succ f ih =>
      intro f2 sb k d p e sb' k' n c' hf h
      obtain ⟨f2', rfl⟩ : ∃ x, f2 = x + 1 := ⟨f2 - 1, by omega⟩
      unfold p2msLoop at h
      split at h
      · exact absurd h (by simp)
      · rename_i bs c1 heq
        obtain ⟨hc1, hplt, htk, hdp, hbsv⟩ := readExact_one_decomp heq
        subst hc1
        have hd0 : d = d.take p ++ (bs.headD 0 :: d.drop (p + 1)) := by
          rw [← hdp, List.take_append_drop]
        split at h
        · -- Num arm
          rename_i value heqOp
          rw [show ScriptBuilder.push_opcode sb (Opcode.Num value)
            = Except.ok (sb ++ ["OP_" ++ toString value]) from rfl] at h
          simp only [MsLoopOut.done.injEq] at h
          obtain ⟨hsb, hkk, hv, hcc⟩ := h
          subst hsb
          subst hkk
          subst hv
          rw [← hcc]
          refine ⟨rfl, ?_⟩
          exact p2msLoop_num f2' (f2' + 1) sb k (d ++ e) (d.take p) (d.drop (p + 1) ++ e)
            (bs.headD 0) value p rfl
            (by conv_lhs => rw [hd0]
                simp [List.append_assoc])
            htk heqOp
        · -- PushBytes arm
          rename_i value heqOp
          split at h
          · rename_i hcnd
            have hcnd' : p + 1 + value ≤ d.length := hcnd
            rw [show ScriptBuilder.push_opcode sb (Opcode.PushBytes value)
              = Except.ok (sb ++ ["OP_PUSHBYTES_" ++ toString value]) from rfl] at h
            have h1 : p2msLoop f (ScriptBuilder.push_bytes (sb ++ ["OP_PUSHBYTES_" ++ toString value])
                ((d.drop (p + 1)).take value)) ((k + 1) % 256) ⟨d, p + 1 + value⟩
                = MsLoopOut.done sb' k' n c' := h
            rw [show ScriptBuilder.push_bytes (sb ++ ["OP_PUSHBYTES_" ++ toString value])
                ((d.drop (p + 1)).take value)
              = sb ++ ["OP_PUSHBYTES_" ++ toString value, hexEncode ((d.drop (p + 1)).take value)]
              from by unfold ScriptBuilder.push_bytes; rw [List.append_assoc]; rfl] at h1
            obtain ⟨hdata, hext⟩ := ih f2' _ _ d (p + 1 + value) e (by omega) h1
            refine ⟨hdata, ?_⟩
            have hkeylen : ((d.drop (p + 1)).take value).length = value := by
              rw [List.length_take, List.length_drop]
              omega
            rw [p2msLoop_push f2' (f2' + 1) sb k (d ++ e) (d.take p)
              ((d.drop (p + 1)).take value) ((d.drop (p + 1)).drop value ++ e)
              (bs.headD 0) value p rfl
              (by conv_lhs => rw [hd0]
                  rw [show (d.drop (p + 1)).take value ++ ((d.drop (p + 1)).drop value ++ e)
                    = d.drop (p + 1) ++ e from by
                      rw [← List.append_assoc, List.take_append_drop]]
                  simp [List.append_assoc])
              htk heqOp hkeylen]
            exact hext
          · exact absurd h (by simp)
        · exact absurd h (by simp)

theorem extOk_runP2msLoop (sb : List String) : ExtOk (runP2msLoop sb) := by
  intro d p e a c0 h
  unfold runP2msLoop at h ⊢
  split at h
  · rename_i sb' k n c1 hl
    simp only [POut.ok.injEq, Prod.mk.injEq] at h
    obtain ⟨ha, hc⟩ := h
    subst ha
    subst hc
    obtain ⟨hdata, hext⟩ := p2msLoop_ext (d.length + 1) ((d ++ e).length + 1) sb 0 d p e
      (by rw [List.length_append]; omega) hl
    refine ⟨hdata, ?_⟩
    rw [show ((⟨d ++ e, p⟩ : Cursor).data.length + 1) = (d ++ e).length + 1 from rfl]
    rw [hext]
  · rename_i hl
    exact absurd h (by simp)
  · exact absurd h (by simp)
  · exact absurd h (by simp)

theorem extOk_p2msTail (sb : List String) : ExtOk (p2msTail sb) := by
  unfold p2msTail
  refine extOk_bind extOk_mReadByte fun b => ?_
  refine extOk_ite _ (extOk_mThrow _ _) ?_
  refine extOk_bind (extOk_liftE _) fun sb1 => ?_
  exact extOk_pure _

theorem extOk_p2msFinish (tOp : Opcode) (sb : List String) (k n : Nat) :
    ExtOk (p2msFinish tOp sb k n) := by
  unfold p2msFinish
  refine extOk_ite _ (extOk_mThrow _ _) ?_
  refine extOk_bind ?_ fun u => extOk_p2msTail sb
  rcases tOp with _ | _ | _ | _ | _ | _ | _ | _ | _ | t | v | _
  case Num => exact extOk_ite _ (extOk_mThrow _ _) (extOk_pure _)
  all_goals exact extOk_pure _

theorem extOk_parse_p2ms : ExtOk parse_p2ms := by
  unfold parse_p2ms
  refine extOk_bind extOk_mReadByte fun b => ?_
  rcases hop : Opcode.from_byte b with _ | _ | _ | _ | _ | _ | _ | _ | _ | t | v | _
  case Num =>
    refine extOk_bind (extOk_liftE _) fun sb => ?_
    refine extOk_bind (extOk_runP2msLoop _) fun out => ?_
    exact extOk_p2msFinish _ _ _ _
  case OP_1 =>
    refine extOk_bind (extOk_liftE _) fun sb => ?_
    refine extOk_bind (extOk_runP2msLoop _) fun out => ?_
    exact extOk_p2msFinish _ _ _ _
  all_goals exact extOk_mThrow _ _

theorem extOk_parse_p2pk : ExtOk parse_p2pk := by
  unfold parse_p2pk
  refine extOk_bind (extOk_mReadExact 65) fun pk => ?_
  refine extOk_bind extOk_mReadByte fun b => ?_
  refine extOk_ite _ (extOk_mThrow _ _) ?_
  refine extOk_bind (extOk_liftE _) fun sb => ?_
  refine extOk_bind (extOk_liftE _) fun sb => ?_
  exact extOk_pure _

theorem extOk_parse_p2pkh : ExtOk parse_p2pkh := by
  unfold parse_p2pkh
  refine extOk_bind extOk_mReadByte fun b1 => ?_
  refine extOk_ite _ (extOk_mThrow _ _) ?_
  refine extOk_bind extOk_mReadByte fun b2 => ?_
  refine extOk_ite _ (extOk_mThrow _ _) ?_
  refine extOk_bind (extOk_mReadExact 20) fun h160 => ?_
  refine extOk_bind extOk_mReadByte fun b3 => ?_
  refine extOk_ite _ (extOk_mThrow _ _) ?_
  refine extOk_bind extOk_mReadByte fun b4 => ?_
  refine extOk_ite _ (extOk_mThrow _ _) ?_
  refine extOk_bind (extOk_liftE _) fun sb => ?_
  refine extOk_bind (extOk_liftE _) fun sb => ?_
  refine extOk_bind (extOk_liftE _) fun sb => ?_
  refine extOk_bind (extOk_liftE _) fun sb => ?_
  refine extOk_bind (extOk_liftE _) fun sb => ?_
  exact extOk_pure _

theorem extOk_parse_p2sh : ExtOk parse_p2sh := by
  unfold parse_p2sh
  refine extOk_bind extOk_mReadByte fun b1 => ?_
  refine extOk_ite _ (extOk_mThrow _ _) ?_
  refine extOk_bind (extOk_mReadExact 20) fun bb => ?_
  refine extOk_bind extOk_mReadByte fun b2 => ?_
  refine extOk_ite _ (extOk_mThrow _ _) ?_
  refine extOk_bind (extOk_liftE _) fun sb => ?_
  refine extOk_bind (extOk_liftE _) fun sb => ?_
  refine extOk_bind (extOk_liftE _) fun sb => ?_
  exact extOk_pure _

theorem extOk_parse_data : ExtOk parse_data := by
  unfold parse_data
  refine extOk_bind extOk_mReadByte fun b => ?_
  refine extOk_bind (extOk_read_bytes _) fun db => ?_
  refine extOk_bind (extOk_liftE _) fun sb => ?_
  refine extOk_bind (extOk_liftE _) fun sb => ?_
  exact extOk_pure _

theorem extOk_parse_p2wpkh : ExtOk parse_p2wpkh := by
  unfold parse_p2wpkh
  refine extOk_bind (extOk_mReadExact 20) fun hb => ?_
  refine extOk_bind (extOk_liftE _) fun sb => ?_
  refine extOk_bind (extOk_liftE _) fun sb => ?_
  exact extOk_pure _

theorem extOk_parse_p2wsh : ExtOk parse_p2wsh := by
  unfold parse_p2wsh
  refine extOk_bind (extOk_mReadExact 32) fun hb => ?_
  refine extOk_bind (extOk_liftE _) fun sb => ?_
  refine extOk_bind (extOk_liftE _) fun sb => ?_
  exact extOk_pure _

theorem extOk_parse_p2tr : ExtOk parse_p2tr := by
  unfold parse_p2tr
  refine extOk_bind (extOk_mReadExact 32) fun hb => ?_
  refine extOk_bind (extOk_liftE _) fun sb => ?_
  refine extOk_bind (extOk_liftE _) fun sb => ?_
  exact extOk_pure _

theorem extOk_parse : ExtOk parse := by
  unfold parse
  refine extOk_bind extOk_mReadByte fun b => ?_
  refine extOk_ite _ extOk_parse_p2pk ?_
  refine extOk_ite _ extOk_parse_p2pkh ?_
  refine extOk_ite _ extOk_parse_p2sh ?_
  refine extOk_ite _ extOk_parse_data ?_
  refine extOk_ite _ ?_ ?_
  · refine extOk_bind extOk_mReadByte fun b2 => ?_
    refine extOk_ite _ extOk_parse_p2wpkh ?_
    refine extOk_ite _ extOk_parse_p2wsh ?_
    exact extOk_mThrow _ _
  · refine extOk_bind extOk_mReadByte fun b2 => ?_
    refine extOk_ite _ extOk_parse_p2tr ?_
    refine extOk_bind extOk_mPosition fun p => ?_
    refine extOk_bind (extOk_mSetPosition _) fun u => ?_
    exact extOk_parse_p2ms

/-- C8 (confirmed): parsing does not reject trailing unconsumed bytes — if
`parse` succeeds on an input, appending any extra bytes after it yields the
same successful mnemonic string (and the same final position); the result
depends only on the consumed part of the input. -/
theorem parse_ignores_trailing (bs extra : List Nat) (s : String) (c' : Cursor)
    (h : parse ⟨bs, 0⟩ = POut.ok (s, c')) :
    parse ⟨bs ++ extra, 0⟩ = POut.ok (s, ⟨bs ++ extra, c'.pos⟩) :=
  (extOk_parse bs 0 extra s c' h).2

/-- C8 witness: appending a garbage byte to a parsed data-carrier script
leaves the output unchanged. -/
theorem parse_ignores_trailing_witness :
    parse ⟨[106, 1, 170, 255], 0⟩
      = POut.ok ("OP_RETURN OP_PUSHBYTES_1 aa", ⟨[106, 1, 170, 255], 3⟩) :=
  parse_ignores_trailing [106, 1, 170] [255] "OP_RETURN OP_PUSHBYTES_1 aa"
    ⟨[106, 1, 170], 3⟩ (by rfl)
